import Mathlib

/-!
Shallow embedding of the low-discrepancy sequence generators of the
lds-cpp repository (namespace lds2 in the sources), together with proofs
about them.

The 1-D van der Corput kernel vdc mirrors the loop in
include/lds/lds.hpp: the loop variable k strictly decreases under
division by the base, so a fuel argument equal to the initial k is
sufficient for bases that are at least 2.  Generators are embedded as
explicit state records; pop returns the drawn value together with the
successor state, exactly as the C++ member functions mutate their
owned counters.

The n-dimensional generators of source/lds_n.cpp use a 300-node grid X
over [0, pi] and the tables NEG_COSINE and SINE; xt::interp (an external
library routine) is embedded as piecewise-linear interpolation with the
bracketing segment found by a greatest-index search.  Parts that live
only in the missing header lds_n.hpp (the recursive constructor chains
of SphereN and CylinN and the accessor get_tp_minus1) are modelled from
the specification, as documented on the respective definitions.
-/

namespace lds2

open Real

/-- Loop body of the van der Corput radix inversion from lds.hpp.  The
first argument is fuel; the C++ loop runs while k is nonzero, and each
iteration replaces k by k / base, multiplies denom by base and adds
(k % base) / denom to the accumulator. -/
noncomputable def vdcAux (base : ℕ) : ℕ → ℕ → ℝ → ℝ → ℝ
  | 0, _, _, vacc => vacc
  | fuel + 1, k, denom, vacc =>
    if k = 0 then vacc
    else vdcAux base fuel (k / base) (denom * base)
      (vacc + ((k % base : ℕ) : ℝ) / (denom * base))

/-- Van der Corput value for index k and the given base, mirroring
CONSTEXPR14 auto vdc(size_t k, const size_t base) of lds.hpp.  Fuel k
is sufficient for every base that is at least 2. -/
noncomputable def vdc (k base : ℕ) : ℝ := vdcAux base k k 1 0

/-- State of the VdCorput generator class: a counter and a base. -/
structure VdCorput where
  count : ℕ
  base : ℕ
  deriving Repr, DecidableEq

/-- Construction of a VdCorput generator: count starts at 0; the base is
stored unchecked, exactly as in the C++ constructor. -/
def VdCorput.init (base : ℕ) : VdCorput := ⟨0, base⟩

/-- The pop member: increment the counter, then evaluate vdc at the new
counter value. -/
noncomputable def VdCorput.pop (σ : VdCorput) : ℝ × VdCorput :=
  (vdc (σ.count + 1) σ.base, ⟨σ.count + 1, σ.base⟩)

/-- The reseed member: overwrite the counter with the seed. -/
def VdCorput.reseed (seed : ℕ) (σ : VdCorput) : VdCorput := ⟨seed, σ.base⟩

/-- Outputs of n successive pops of a VdCorput generator. -/
noncomputable def VdCorput.popN : ℕ → VdCorput → List ℝ
  | 0, _ => []
  | n + 1, σ =>
    let r := σ.pop
    r.1 :: VdCorput.popN n r.2

/-- The constant TWO_PI of lds.hpp. -/
noncomputable def TWO_PI : ℝ := 2 * π

/-- State of the Halton generator: two van der Corput generators. -/
structure Halton where
  vdc0 : VdCorput
  vdc1 : VdCorput

/-- Construction of a Halton generator from two bases. -/
def Halton.init (base0 base1 : ℕ) : Halton :=
  ⟨VdCorput.init base0, VdCorput.init base1⟩

/-- The Halton pop member: one draw from each owned generator. -/
noncomputable def Halton.pop (σ : Halton) : (ℝ × ℝ) × Halton :=
  let r0 := σ.vdc0.pop
  let r1 := σ.vdc1.pop
  ((r0.1, r1.1), ⟨r0.2, r1.2⟩)

/-- The Halton reseed member: reseed both owned generators. -/
def Halton.reseed (seed : ℕ) (σ : Halton) : Halton :=
  ⟨σ.vdc0.reseed seed, σ.vdc1.reseed seed⟩

/-- Outputs of n successive pops of a Halton generator. -/
noncomputable def Halton.popN : ℕ → Halton → List (ℝ × ℝ)
  | 0, _ => []
  | n + 1, σ =>
    let r := σ.pop
    r.1 :: Halton.popN n r.2

/-- State of the Circle generator: one van der Corput generator. -/
structure Circle where
  vdc : VdCorput

/-- Construction of a Circle generator. -/
def Circle.init (base : ℕ) : Circle := ⟨VdCorput.init base⟩

/-- The Circle pop member: map the draw to an angle in [0, 2 pi) and
return (sin theta, cos theta). -/
noncomputable def Circle.pop (σ : Circle) : (ℝ × ℝ) × Circle :=
  let r := σ.vdc.pop
  let theta := r.1 * TWO_PI
  ((Real.sin theta, Real.cos theta), ⟨r.2⟩)

/-- The Circle reseed member. -/
def Circle.reseed (seed : ℕ) (σ : Circle) : Circle := ⟨σ.vdc.reseed seed⟩

/-- Outputs of n successive pops of a Circle generator. -/
noncomputable def Circle.popN : ℕ → Circle → List (ℝ × ℝ)
  | 0, _ => []
  | n + 1, σ =>
    let r := σ.pop
    r.1 :: Circle.popN n r.2

/-- State of the Sphere generator: a van der Corput generator and a
Circle generator. -/
structure Sphere where
  vdcgen : VdCorput
  cirgen : Circle

/-- Construction of a Sphere generator from two bases. -/
def Sphere.init (base0 base1 : ℕ) : Sphere :=
  ⟨VdCorput.init base0, Circle.init base1⟩

/-- The Sphere pop member: cosphi = 2 u - 1, sinphi = sqrt(1 - cosphi^2),
then scale the circle point by sinphi and append cosphi. -/
noncomputable def Sphere.pop (σ : Sphere) : (ℝ × ℝ × ℝ) × Sphere :=
  let r := σ.vdcgen.pop
  let cosphi := 2 * r.1 - 1
  let sinphi := Real.sqrt (1 - cosphi ^ 2)
  let a := σ.cirgen.pop
  ((sinphi * a.1.1, sinphi * a.1.2, cosphi), ⟨r.2, a.2⟩)

/-- The Sphere reseed member: reseed both owned generators. -/
def Sphere.reseed (seed : ℕ) (σ : Sphere) : Sphere :=
  ⟨σ.vdcgen.reseed seed, σ.cirgen.reseed seed⟩

/-- Outputs of n successive pops of a Sphere generator. -/
noncomputable def Sphere.popN : ℕ → Sphere → List (ℝ × ℝ × ℝ)
  | 0, _ => []
  | n + 1, σ =>
    let r := σ.pop
    r.1 :: Sphere.popN n r.2

/-- State of the Sphere3Hopf generator: three van der Corput
generators. -/
structure Sphere3Hopf where
  vdc0 : VdCorput
  vdc1 : VdCorput
  vdc2 : VdCorput

/-- Construction of a Sphere3Hopf generator from three bases. -/
def Sphere3Hopf.init (base0 base1 base2 : ℕ) : Sphere3Hopf :=
  ⟨VdCorput.init base0, VdCorput.init base1, VdCorput.init base2⟩

/-- The Sphere3Hopf pop member, the Hopf-fibration closed form. -/
noncomputable def Sphere3Hopf.pop (σ : Sphere3Hopf) :
    (ℝ × ℝ × ℝ × ℝ) × Sphere3Hopf :=
  let r0 := σ.vdc0.pop
  let r1 := σ.vdc1.pop
  let r2 := σ.vdc2.pop
  let phi := r0.1 * TWO_PI
  let psy := r1.1 * TWO_PI
  let vd := r2.1
  let cos_eta := Real.sqrt vd
  let sin_eta := Real.sqrt (1 - vd)
  ((cos_eta * Real.cos psy, cos_eta * Real.sin psy,
    sin_eta * Real.cos (phi + psy), sin_eta * Real.sin (phi + psy)),
   ⟨r0.2, r1.2, r2.2⟩)

/-- The Sphere3Hopf reseed member: reseed the three owned generators. -/
def Sphere3Hopf.reseed (seed : ℕ) (σ : Sphere3Hopf) : Sphere3Hopf :=
  ⟨σ.vdc0.reseed seed, σ.vdc1.reseed seed, σ.vdc2.reseed seed⟩

/-- Outputs of n successive pops of a Sphere3Hopf generator. -/
noncomputable def Sphere3Hopf.popN : ℕ → Sphere3Hopf → List (ℝ × ℝ × ℝ × ℝ)
  | 0, _ => []
  | n + 1, σ =>
    let r := σ.pop
    r.1 :: Sphere3Hopf.popN n r.2

/-- Grid node i of the 300-node grid X = linspace(0, pi, 300) of
lds_n.cpp; nodes 0 through 299 are the grid, spacing pi / 299. -/
noncomputable def X (i : ℕ) : ℝ := i * π / 299

/-- Table NEG_COSINE = -cos(X) of lds_n.cpp. -/
noncomputable def NEG_COSINE (i : ℕ) : ℝ := -Real.cos (X i)

/-- Table SINE = sin(X) of lds_n.cpp. -/
noncomputable def SINE (i : ℕ) : ℝ := Real.sin (X i)

open Classical in
/-- Greatest index i with i at most n such that xp i is at most t, and 0
when there is none: the bracketing-segment search of the external
xt::interp routine. -/
noncomputable def interpIdx (xp : ℕ → ℝ) (t : ℝ) : ℕ → ℕ
  | 0 => 0
  | n + 1 => if xp (n + 1) ≤ t then n + 1 else interpIdx xp t n

open Classical in
/-- Piecewise-linear interpolation with sample points xp and values fp
on indices 0 through 299, evaluated at t: the external xt::interp
routine specialised to this repository's 300-node tables.  Outside the
sample range the boundary value is returned. -/
noncomputable def interpAt (xp fp : ℕ → ℝ) (t : ℝ) : ℝ :=
  if t ≤ xp 0 then fp 0
  else if xp 299 ≤ t then fp 299
  else
    let i := interpIdx xp t 298
    fp i + (t - xp i) * (fp (i + 1) - fp i) / (xp (i + 1) - xp i)

/-- Angle table of the Sphere3 generator,
tp = 0.5 * (X - SINE * NEG_COSINE) from lds_n.cpp. -/
noncomputable def tp3 (i : ℕ) : ℝ := 0.5 * (X i - SINE i * NEG_COSINE i)

/-- Angle tables of the SphereN generators.  Level k is the table of the
generator with k + 4 bases: level 0 is built at construction from
tp_minus2 = NEG_COSINE as
tp = ((n - 1) * tp_minus2 + NEG_COSINE * SINE^(n-1)) / n with n = 3, and
level k + 1 is built from the level-k table of the nested generator
(its get_tp_minus1 accessor, which lives in the missing header
lds_n.hpp and is modelled from the spec as returning the previous
dimension's table) with n = k + 4. -/
noncomputable def tpRec : ℕ → ℕ → ℝ
  | 0, i => (2 * NEG_COSINE i + NEG_COSINE i * SINE i ^ 2) / 3
  | k + 1, i =>
    (((k : ℝ) + 3) * tpRec k i + NEG_COSINE i * SINE i ^ (k + 3)) / ((k : ℝ) + 4)

/-- State of the Sphere3 generator: a van der Corput generator and a
Sphere generator (the fixed table tp3 is a global constant). -/
structure Sphere3 where
  vdc : VdCorput
  sphere2 : Sphere

/-- Construction of a Sphere3 generator from three bases, mirroring
Sphere3::Sphere3(span) of lds_n.cpp: vdc from base 0, the nested Sphere
from bases 1 and 2. -/
def Sphere3.init (base0 base1 base2 : ℕ) : Sphere3 :=
  ⟨VdCorput.init base0, Sphere.init base1 base2⟩

/-- The Sphere3 pop member of lds_n.cpp: map the draw to
[0, pi/2], invert through the table tp3 by interpolation against the
grid X, then scale the nested Sphere point by sin(xi) and append
cos(xi). -/
noncomputable def Sphere3.pop (σ : Sphere3) : (ℝ × ℝ × ℝ × ℝ) × Sphere3 :=
  let r := σ.vdc.pop
  let ti := π / 2 * r.1
  let xi := interpAt tp3 X ti
  let s := σ.sphere2.pop
  ((Real.sin xi * s.1.1, Real.sin xi * s.1.2.1, Real.sin xi * s.1.2.2,
    Real.cos xi), ⟨r.2, s.2⟩)

/-- Recursive state of the SphereN generator of lds_n.cpp: with four
bases the nested generator is a Sphere3, with more bases it is a
smaller SphereN. -/
inductive SphereN where
  | ofS3 : VdCorput → Sphere3 → SphereN
  | ofSN : VdCorput → SphereN → SphereN

/-- Number of bases a SphereN state was constructed from. -/
def SphereN.nbase : SphereN → ℕ
  | .ofS3 _ _ => 4
  | .ofSN _ s => s.nbase + 1

/-- Construction of a SphereN generator from a list of bases, mirroring
SphereN::SphereN(span) of lds_n.cpp: with exactly four bases the nested
generator is a Sphere3 on bases 1..3, with more bases it is a SphereN
on the tail; the constructor asserts at least four bases (modelled as
none).  The shape of the member declarations comes from the spec since
the header lds_n.hpp is not among the sources. -/
def SphereN.init : List ℕ → Option SphereN
  | [b0, b1, b2, b3] => some (.ofS3 (VdCorput.init b0) (Sphere3.init b1 b2 b3))
  | b0 :: rest => (SphereN.init rest).map (.ofSN (VdCorput.init b0))
  | _ => none

/-- The SphereN pop member of lds_n.cpp: draw vd, map it linearly onto
the range of this level's table tp, invert through tp by interpolation
against the grid X, scale the nested point by sin(xi) and append
cos(xi).  The table of a state with m bases is tpRec (m - 4). -/
noncomputable def SphereN.pop : SphereN → List ℝ × SphereN
  | .ofS3 v s3 =>
    let r := v.pop
    let t := tpRec 0
    let ti := t 0 + (t 299 - t 0) * r.1
    let xi := interpAt t X ti
    let q := s3.pop
    (([q.1.1, q.1.2.1, q.1.2.2.1, q.1.2.2.2].map fun y => Real.sin xi * y)
       ++ [Real.cos xi], .ofS3 r.2 q.2)
  | .ofSN v sn =>
    let r := v.pop
    let t := tpRec (sn.nbase - 3)
    let ti := t 0 + (t 299 - t 0) * r.1
    let xi := interpAt t X ti
    let q := sn.pop
    ((q.1.map fun y => Real.sin xi * y) ++ [Real.cos xi], .ofSN r.2 q.2)

/-- Recursive state of the CylinN generator of lds_n.cpp: the nested
generator is either a Circle or a smaller CylinN. -/
inductive CylinN where
  | ofCircle : VdCorput → Circle → CylinN
  | ofCylin : VdCorput → CylinN → CylinN

/-- Modelled from the spec: the CylinN constructor chain is declared in
the missing header lds_n.hpp; per spec section 4.4 the recursion has
the same shape as SphereN and terminates at the CircleGenerator, so two
bases give a Circle nested generator and more bases recurse on the
tail. -/
def CylinN.init : List ℕ → Option CylinN
  | [b0, b1] => some (.ofCircle (VdCorput.init b0) (Circle.init b1))
  | b0 :: rest => (CylinN.init rest).map (.ofCylin (VdCorput.init b0))
  | _ => none

/-- The CylinN pop member of lds_n.cpp: cosphi = 2 u - 1 directly (no
table, no inversion), sinphi = sqrt(1 - cosphi^2), scale the nested
point by sinphi and append cosphi. -/
noncomputable def CylinN.pop : CylinN → List ℝ × CylinN
  | .ofCircle v c =>
    let r := v.pop
    let cosphi := 2 * r.1 - 1
    let sinphi := Real.sqrt (1 - cosphi ^ 2)
    let a := c.pop
    ([sinphi * a.1.1, sinphi * a.1.2] ++ [cosphi], .ofCircle r.2 a.2)
  | .ofCylin v cy =>
    let r := v.pop
    let cosphi := 2 * r.1 - 1
    let sinphi := Real.sqrt (1 - cosphi ^ 2)
    let q := cy.pop
    ((q.1.map fun y => sinphi * y) ++ [cosphi], .ofCylin r.2 q.2)

/-- Sum of squared entries of a list of reals, for stating the
unit-norm invariant. -/
def sumSq (l : List ℝ) : ℝ := (l.map fun y => y ^ 2).sum

/-- Unfolding equation of vdcAux at fuel 0. -/
lemma vdcAux_zero (b k : ℕ) (d v : ℝ) : vdcAux b 0 k d v = v := rfl

/-- Unfolding equation of vdcAux at successor fuel: one iteration of the
C++ loop. -/
lemma vdcAux_succ (b fuel k : ℕ) (d v : ℝ) :
    vdcAux b (fuel + 1) k d v =
      if k = 0 then v
      else vdcAux b fuel (k / b) (d * b) (v + ((k % b : ℕ) : ℝ) / (d * b)) := rfl

/-- Loop invariant of the radix-inversion loop: with positive
denominator d the loop adds a value in [0, 1/d) to the accumulator. -/
lemma vdcAux_bounds {b : ℕ} (hb : 2 ≤ b) :
    ∀ fuel k : ℕ, ∀ d v : ℝ, k ≤ fuel → 0 < d →
      v ≤ vdcAux b fuel k d v ∧ vdcAux b fuel k d v < v + 1 / d := by
  intro fuel
  induction fuel with
  | zero =>
    intro k d v hk hd
    interval_cases k
    have : (0:ℝ) < 1 / d := by positivity
    exact ⟨le_refl v, by rw [vdcAux_zero]; linarith⟩
  | succ f ih =>
    intro k d v hk hd
    rw [vdcAux_succ]
    by_cases h0 : k = 0
    · rw [if_pos h0]
      have : (0:ℝ) < 1 / d := by positivity
      exact ⟨le_refl v, by linarith⟩
    · rw [if_neg h0]
      have hbpos : 0 < b := by omega
      have hkb : k / b < k := Nat.div_lt_self (Nat.pos_of_ne_zero h0) (by omega)
      have hkf : k / b ≤ f := by omega
      have hdb : (0:ℝ) < d * b := by positivity
      obtain ⟨h1, h2⟩ := ih (k / b) (d * b) (v + ((k % b : ℕ) : ℝ) / (d * b)) hkf hdb
      constructor
      · refine le_trans ?_ h1
        have : (0:ℝ) ≤ ((k % b : ℕ) : ℝ) / (d * b) := by positivity
        linarith
      · have hmod : ((k % b : ℕ) : ℝ) + 1 ≤ (b : ℝ) := by
          have := Nat.mod_lt k hbpos
          exact_mod_cast this
        have hstep : ((k % b : ℕ) : ℝ) / (d * b) + 1 / (d * b) ≤ 1 / d := by
          rw [div_add_div_same]
          have hb0 : (b:ℝ) ≠ 0 := by positivity
          have : (1:ℝ) / d = (b : ℝ) / (d * b) := by field_simp
          rw [this]
          exact div_le_div_of_nonneg_right hmod hdb.le
        linarith

/-- Range of the van der Corput value for a valid base. -/
lemma vdc_mem_Ico {b : ℕ} (hb : 2 ≤ b) (k : ℕ) : vdc k b ∈ Set.Ico (0:ℝ) 1 := by
  obtain ⟨h1, h2⟩ := vdcAux_bounds hb k k 1 0 (le_refl k) one_pos
  exact ⟨h1, by simpa using h2⟩

/-- Fuel beyond the initial index value is irrelevant: the loop reaches
k = 0 within k iterations whenever the base is at least 2, which is the
termination argument for the C++ while loop. -/
lemma vdcAux_fuel_irrel {b : ℕ} (hb : 2 ≤ b) :
    ∀ k fuel : ℕ, ∀ d v : ℝ, k ≤ fuel → vdcAux b fuel k d v = vdcAux b k k d v := by
  intro k
  induction k using Nat.strong_induction_on with
  | _ k ih =>
    intro fuel d v hk
    by_cases h0 : k = 0
    · subst h0
      cases fuel with
      | zero => rfl
      | succ f => rw [vdcAux_succ, if_pos rfl, vdcAux_zero]
    · obtain ⟨j, rfl⟩ : ∃ j, k = j + 1 := ⟨k - 1, by omega⟩
      obtain ⟨f, rfl⟩ : ∃ f, fuel = f + 1 := ⟨fuel - 1, by omega⟩
      rw [vdcAux_succ, if_neg h0, vdcAux_succ, if_neg h0]
      have hkb : (j + 1) / b < j + 1 := Nat.div_lt_self (by omega) (by omega)
      rw [ih ((j + 1) / b) hkb f _ _ (by omega), ih ((j + 1) / b) hkb j _ _ (by omega)]

/-- Claim C1: for every base at least 2 and every index k at least 1 the
van der Corput value vdc(k, base) lies in [0, 1), and for base 2 the
values at k = 1, 2, 3, 4, 5 are exactly 0.5, 0.25, 0.75, 0.125,
0.625. -/
theorem claim_C1_vdc_range_and_first_values :
    (∀ b k : ℕ, 2 ≤ b → 1 ≤ k → vdc k b ∈ Set.Ico (0:ℝ) 1) ∧
      vdc 1 2 = 0.5 ∧ vdc 2 2 = 0.25 ∧ vdc 3 2 = 0.75 ∧
      vdc 4 2 = 0.125 ∧ vdc 5 2 = 0.625 := by
  refine ⟨fun b k hb _ => vdc_mem_Ico hb k, ?_, ?_, ?_, ?_, ?_⟩ <;>
    norm_num [vdc, vdcAux]

/-- Witness for claim C1 at base 2, index 3. -/
theorem claim_C1_witness : vdc 3 2 ∈ Set.Ico (0:ℝ) 1 :=
  claim_C1_vdc_range_and_first_values.1 2 3 (by norm_num) (by norm_num)

/-- Claim C9: pop operations terminate for every counter value once the
bases are valid.  The loop index of the radix inversion strictly
decreases under division by the base, so fuel equal to the initial index
makes the loop embedding insensitive to any further fuel: the C++ while
loop ends within k iterations, and the embedding of every pop is a
total function. -/
theorem claim_C9_termination :
    (∀ b k : ℕ, 2 ≤ b → k ≠ 0 → k / b < k) ∧
      (∀ b fuel k : ℕ, ∀ d v : ℝ, 2 ≤ b → k ≤ fuel →
        vdcAux b fuel k d v = vdcAux b k k d v) := by
  constructor
  · intro b k hb hk
    exact Nat.div_lt_self (Nat.pos_of_ne_zero hk) (by omega)
  · intro b fuel k d v hb hk
    exact vdcAux_fuel_irrel hb k fuel d v hk

/-- Witness for claim C9 at base 2, index 5, fuel 9. -/
theorem claim_C9_witness :
    (5 : ℕ) / 2 < 5 ∧ vdcAux 2 9 5 1 0 = vdcAux 2 5 5 1 0 :=
  ⟨claim_C9_termination.1 2 5 (by norm_num) (by norm_num),
    claim_C9_termination.2 2 9 5 1 0 (by norm_num) (by norm_num)⟩

/-- Claim C2: for each generator type, reseeding to s and popping N
times yields exactly the N outputs of a freshly constructed generator
with the same bases whose counters start at s (the fresh instance with
counters at s being the fresh instance reseeded to s), and reseeding a
fresh instance to 0 is the identity, so reseed(0) reproduces the
sequence of a fresh instance; reseed reaches every owned counter. -/
theorem claim_C2_reseed_reproduces (N s : ℕ) :
    (∀ (b : ℕ) (σ : VdCorput), σ.base = b →
      VdCorput.popN N (σ.reseed s) = VdCorput.popN N ((VdCorput.init b).reseed s)) ∧
    (∀ (b0 b1 : ℕ) (σ : Halton), σ.vdc0.base = b0 → σ.vdc1.base = b1 →
      Halton.popN N (σ.reseed s) = Halton.popN N ((Halton.init b0 b1).reseed s)) ∧
    (∀ (b : ℕ) (σ : Circle), σ.vdc.base = b →
      Circle.popN N (σ.reseed s) = Circle.popN N ((Circle.init b).reseed s)) ∧
    (∀ (b0 b1 : ℕ) (σ : Sphere), σ.vdcgen.base = b0 → σ.cirgen.vdc.base = b1 →
      Sphere.popN N (σ.reseed s) = Sphere.popN N ((Sphere.init b0 b1).reseed s)) ∧
    (∀ (b0 b1 b2 : ℕ) (σ : Sphere3Hopf),
      σ.vdc0.base = b0 → σ.vdc1.base = b1 → σ.vdc2.base = b2 →
      Sphere3Hopf.popN N (σ.reseed s) =
        Sphere3Hopf.popN N ((Sphere3Hopf.init b0 b1 b2).reseed s)) ∧
    (∀ b : ℕ, (VdCorput.init b).reseed 0 = VdCorput.init b) ∧
    (∀ b0 b1 : ℕ, (Halton.init b0 b1).reseed 0 = Halton.init b0 b1) ∧
    (∀ b : ℕ, (Circle.init b).reseed 0 = Circle.init b) ∧
    (∀ b0 b1 : ℕ, (Sphere.init b0 b1).reseed 0 = Sphere.init b0 b1) ∧
    (∀ b0 b1 b2 : ℕ,
      (Sphere3Hopf.init b0 b1 b2).reseed 0 = Sphere3Hopf.init b0 b1 b2) := by
  refine ⟨?_, ?_, ?_, ?_, ?_, fun _ => rfl, fun _ _ => rfl, fun _ => rfl,
    fun _ _ => rfl, fun _ _ _ => rfl⟩
  · intro b σ h
    obtain ⟨c, bb⟩ := σ
    cases h
    rfl
  · intro b0 b1 σ h0 h1
    obtain ⟨⟨c0, bb0⟩, ⟨c1, bb1⟩⟩ := σ
    cases h0; cases h1
    rfl
  · intro b σ h
    obtain ⟨⟨c, bb⟩⟩ := σ
    cases h
    rfl
  · intro b0 b1 σ h0 h1
    obtain ⟨⟨c0, bb0⟩, ⟨⟨c1, bb1⟩⟩⟩ := σ
    cases h0; cases h1
    rfl
  · intro b0 b1 b2 σ h0 h1 h2
    obtain ⟨⟨c0, bb0⟩, ⟨c1, bb1⟩, ⟨c2, bb2⟩⟩ := σ
    cases h0; cases h1; cases h2
    rfl

/-- Witness for claim C2 with N = 3, seed 2, on a VdCorput state with a
nonzero counter. -/
theorem claim_C2_witness :
    VdCorput.popN 3 ((⟨7, 2⟩ : VdCorput).reseed 2) =
      VdCorput.popN 3 ((VdCorput.init 2).reseed 2) :=
  (claim_C2_reseed_reproduces 3 2).1 2 ⟨7, 2⟩ rfl

/-- Validity of a Sphere state: both owned bases are at least 2. -/
def Sphere.Valid (σ : Sphere) : Prop :=
  2 ≤ σ.vdcgen.base ∧ 2 ≤ σ.cirgen.vdc.base

/-- Validity of a Sphere3Hopf state: all three owned bases are at
least 2. -/
def Sphere3Hopf.Valid (σ : Sphere3Hopf) : Prop :=
  2 ≤ σ.vdc0.base ∧ 2 ≤ σ.vdc1.base ∧ 2 ≤ σ.vdc2.base

/-- Validity of a Sphere3 state: all owned bases are at least 2. -/
def Sphere3.Valid (σ : Sphere3) : Prop :=
  2 ≤ σ.vdc.base ∧ σ.sphere2.Valid

/-- Validity of a SphereN state: all owned bases along the recursive
chain are at least 2. -/
def SphereN.Valid : SphereN → Prop
  | .ofS3 v s3 => 2 ≤ v.base ∧ s3.Valid
  | .ofSN v s => 2 ≤ v.base ∧ s.Valid

/-- Validity of a CylinN state: all owned bases along the recursive
chain are at least 2. -/
def CylinN.Valid : CylinN → Prop
  | .ofCircle v c => 2 ≤ v.base ∧ 2 ≤ c.vdc.base
  | .ofCylin v cy => 2 ≤ v.base ∧ cy.Valid

/-- Construction of SphereN succeeds exactly on base lists of length at
least 4 (the debug assertion of the constructor). -/
lemma SphereN_init_isSome : ∀ bs : List ℕ, (SphereN.init bs).isSome ↔ 4 ≤ bs.length
  | [] => by simp [SphereN.init]
  | [_] => by simp [SphereN.init]
  | [_, _] => by simp [SphereN.init]
  | [_, _, _] => by simp [SphereN.init]
  | [_, _, _, _] => by simp [SphereN.init]
  | a :: b :: c :: d :: e :: t => by
    have ih := SphereN_init_isSome (b :: c :: d :: e :: t)
    simp only [SphereN.init, Option.isSome_map] at ih ⊢
    simpa using ih

/-- Construction of CylinN succeeds exactly on base lists of length at
least 2. -/
lemma CylinN_init_isSome : ∀ bs : List ℕ, (CylinN.init bs).isSome ↔ 2 ≤ bs.length
  | [] => by simp [CylinN.init]
  | [_] => by simp [CylinN.init]
  | [_, _] => by simp [CylinN.init]
  | a :: b :: c :: t => by
    have ih := CylinN_init_isSome (b :: c :: t)
    simp only [CylinN.init, Option.isSome_map] at ih ⊢
    simpa using ih

/-- Counterexample to claim C8: constructing a 1-D generator with base 0
or base 1 does not raise any error; the constructor stores the invalid
base unchecked and returns an ordinary state. -/
theorem claim_C8_counterexample :
    VdCorput.init 0 = { count := 0, base := 0 } ∧
      VdCorput.init 1 = { count := 0, base := 1 } :=
  ⟨rfl, rfl⟩

/-- Claim C8 as amended: no InvalidArgument-style validation exists.
The 1-D constructor accepts every base unchecked; the recursive SphereN
and CylinN constructions fail (via the debug assertion, modelled as
none) exactly when fewer than 4 respectively 2 bases are supplied; pop
and reseed are total and never raise after construction. -/
theorem claim_C8_amended :
    (∀ b : ℕ, VdCorput.init b = { count := 0, base := b }) ∧
      (∀ bs : List ℕ, (SphereN.init bs).isSome ↔ 4 ≤ bs.length) ∧
      (∀ bs : List ℕ, (CylinN.init bs).isSome ↔ 2 ≤ bs.length) :=
  ⟨fun _ => rfl, SphereN_init_isSome, CylinN_init_isSome⟩

/-- Sum of squares of the empty list. -/
lemma sumSq_nil : sumSq ([] : List ℝ) = 0 := rfl

/-- Sum of squares of a cons cell. -/
lemma sumSq_cons (x : ℝ) (l : List ℝ) : sumSq (x :: l) = x ^ 2 + sumSq l := by
  simp [sumSq]

/-- Sum of squares of a concatenation. -/
lemma sumSq_append (l1 l2 : List ℝ) : sumSq (l1 ++ l2) = sumSq l1 + sumSq l2 := by
  simp [sumSq]

/-- Scaling every entry scales the sum of squares by the square. -/
lemma sumSq_map_mul (c : ℝ) (l : List ℝ) :
    sumSq (l.map fun y => c * y) = c ^ 2 * sumSq l := by
  induction l with
  | nil => simp [sumSq]
  | cons x t ih =>
    simp only [List.map_cons, sumSq_cons, ih]
    ring

/-- Unit-circle property of Circle.pop, with no validity hypothesis:
the point is (sin, cos) of an angle. -/
lemma Circle_pop_unit (σ : Circle) :
    ((σ.pop).1.1) ^ 2 + ((σ.pop).1.2) ^ 2 = 1 := by
  simp only [Circle.pop]
  exact Real.sin_sq_add_cos_sq _

/-- Unit-norm property of Sphere.pop for a valid state. -/
lemma Sphere_pop_unit (σ : Sphere) (h : σ.Valid) :
    ((σ.pop).1.1) ^ 2 + ((σ.pop).1.2.1) ^ 2 + ((σ.pop).1.2.2) ^ 2 = 1 := by
  obtain ⟨h1, _⟩ := h
  have hu := vdc_mem_Ico h1 (σ.vdcgen.count + 1)
  obtain ⟨hu0, hu1⟩ := hu
  have hcirc := Circle_pop_unit σ.cirgen
  simp only [Sphere.pop, VdCorput.pop]
  set u := vdc (σ.vdcgen.count + 1) σ.vdcgen.base with hudef
  have hsq : (1 : ℝ) - (2 * u - 1) ^ 2 ≥ 0 := by nlinarith
  have hs : Real.sqrt (1 - (2 * u - 1) ^ 2) ^ 2 = 1 - (2 * u - 1) ^ 2 :=
    Real.sq_sqrt hsq
  nlinarith [hs, hcirc]

/-- Unit-norm property of Sphere3Hopf.pop for a valid state. -/
lemma Sphere3Hopf_pop_unit (σ : Sphere3Hopf) (h : σ.Valid) :
    ((σ.pop).1.1) ^ 2 + ((σ.pop).1.2.1) ^ 2 + ((σ.pop).1.2.2.1) ^ 2 +
      ((σ.pop).1.2.2.2) ^ 2 = 1 := by
  obtain ⟨_, _, h2⟩ := h
  obtain ⟨hv0, hv1⟩ := vdc_mem_Ico h2 (σ.vdc2.count + 1)
  simp only [Sphere3Hopf.pop, VdCorput.pop]
  set vd := vdc (σ.vdc2.count + 1) σ.vdc2.base with hvd
  have h1 : Real.sqrt vd ^ 2 = vd := Real.sq_sqrt hv0
  have h2b : Real.sqrt (1 - vd) ^ 2 = 1 - vd := Real.sq_sqrt (by linarith)
  have c1 := Real.sin_sq_add_cos_sq (vdc (σ.vdc1.count + 1) σ.vdc1.base * TWO_PI)
  have c2 := Real.sin_sq_add_cos_sq
    (vdc (σ.vdc0.count + 1) σ.vdc0.base * TWO_PI +
      vdc (σ.vdc1.count + 1) σ.vdc1.base * TWO_PI)
  nlinarith [h1, h2b, c1, c2]

/-- Unit-norm property of Sphere3.pop for a valid state. -/
lemma Sphere3_pop_unit (σ : Sphere3) (h : σ.Valid) :
    ((σ.pop).1.1) ^ 2 + ((σ.pop).1.2.1) ^ 2 + ((σ.pop).1.2.2.1) ^ 2 +
      ((σ.pop).1.2.2.2) ^ 2 = 1 := by
  have hsph := Sphere_pop_unit σ.sphere2 h.2
  simp only [Sphere3.pop]
  have hxi := Real.sin_sq_add_cos_sq
    (interpAt tp3 X (π / 2 * (σ.vdc.pop).1))
  nlinarith [hsph, hxi]

/-- Unit-norm property of SphereN.pop for a valid state, by induction on
the recursive generator chain. -/
lemma SphereN_pop_unit : ∀ σ : SphereN, σ.Valid → sumSq (σ.pop).1 = 1
  | .ofS3 v s3, h => by
    have hs3 := Sphere3_pop_unit s3 h.2
    have hxi := Real.sin_sq_add_cos_sq
      (interpAt (tpRec 0) X
        (tpRec 0 0 + (tpRec 0 299 - tpRec 0 0) * (v.pop).1))
    simp only [SphereN.pop]
    rw [sumSq_append, sumSq_map_mul]
    simp only [sumSq_cons, sumSq_nil, add_zero]
    nlinarith [hs3, hxi]
  | .ofSN v s, h => by
    have ih := SphereN_pop_unit s h.2
    have hxi := Real.sin_sq_add_cos_sq
      (interpAt (tpRec (s.nbase - 3)) X
        (tpRec (s.nbase - 3) 0 +
          (tpRec (s.nbase - 3) 299 - tpRec (s.nbase - 3) 0) * (v.pop).1))
    simp only [SphereN.pop]
    rw [sumSq_append, sumSq_map_mul]
    simp only [sumSq_cons, sumSq_nil, add_zero]
    nlinarith [ih, hxi]

/-- Unit-norm property of CylinN.pop for a valid state, by induction on
the recursive generator chain. -/
lemma CylinN_pop_unit : ∀ σ : CylinN, σ.Valid → sumSq (σ.pop).1 = 1
  | .ofCircle v c, h => by
    obtain ⟨hv0, hv1⟩ := vdc_mem_Ico h.1 (v.count + 1)
    have hc := Circle_pop_unit c
    simp only [CylinN.pop, VdCorput.pop]
    simp only [List.cons_append, List.nil_append]
    simp only [sumSq_cons, sumSq_nil, add_zero]
    set u := vdc (v.count + 1) v.base with hu
    have hsq : (1 : ℝ) - (2 * u - 1) ^ 2 ≥ 0 := by nlinarith
    have hs : Real.sqrt (1 - (2 * u - 1) ^ 2) ^ 2 = 1 - (2 * u - 1) ^ 2 :=
      Real.sq_sqrt hsq
    nlinarith [hs, hc]
  | .ofCylin v cy, h => by
    obtain ⟨hv0, hv1⟩ := vdc_mem_Ico h.1 (v.count + 1)
    have ih := CylinN_pop_unit cy h.2
    simp only [CylinN.pop, VdCorput.pop]
    rw [sumSq_append, sumSq_map_mul]
    simp only [sumSq_cons, sumSq_nil, add_zero]
    set u := vdc (v.count + 1) v.base with hu
    have hsq : (1 : ℝ) - (2 * u - 1) ^ 2 ≥ 0 := by nlinarith
    have hs : Real.sqrt (1 - (2 * u - 1) ^ 2) ^ 2 = 1 - (2 * u - 1) ^ 2 :=
      Real.sq_sqrt hsq
    nlinarith [hs, ih]

/-- Claim C10: in exact real arithmetic every vector popped by Sphere,
Sphere3Hopf, Sphere3, SphereN and CylinN has squared Euclidean norm
exactly 1, for every state whose bases are all at least 2; the
recursive generators preserve the invariant by scaling a unit vector by
sin(phi) and appending cos(phi). -/
theorem claim_C10_unit_norm :
    (∀ σ : Sphere, σ.Valid →
      ((σ.pop).1.1) ^ 2 + ((σ.pop).1.2.1) ^ 2 + ((σ.pop).1.2.2) ^ 2 = 1) ∧
    (∀ σ : Sphere3Hopf, σ.Valid →
      ((σ.pop).1.1) ^ 2 + ((σ.pop).1.2.1) ^ 2 + ((σ.pop).1.2.2.1) ^ 2 +
        ((σ.pop).1.2.2.2) ^ 2 = 1) ∧
    (∀ σ : Sphere3, σ.Valid →
      ((σ.pop).1.1) ^ 2 + ((σ.pop).1.2.1) ^ 2 + ((σ.pop).1.2.2.1) ^ 2 +
        ((σ.pop).1.2.2.2) ^ 2 = 1) ∧
    (∀ σ : SphereN, σ.Valid → sumSq (σ.pop).1 = 1) ∧
    (∀ σ : CylinN, σ.Valid → sumSq (σ.pop).1 = 1) :=
  ⟨Sphere_pop_unit, Sphere3Hopf_pop_unit, Sphere3_pop_unit,
    SphereN_pop_unit, CylinN_pop_unit⟩

/-- Unfolding equation of the index search at a successor bound. -/
lemma interpIdx_succ (xp : ℕ → ℝ) (t : ℝ) (n : ℕ) :
    interpIdx xp t (n + 1) =
      if xp (n + 1) ≤ t then n + 1 else interpIdx xp t n := rfl

/-- Characterisation of the index search: it returns i when xp i is at
most t and no later index up to the bound satisfies this. -/
lemma interpIdx_spec (xp : ℕ → ℝ) (t : ℝ) (i : ℕ) :
    ∀ n, i ≤ n → xp i ≤ t → (∀ k, i < k → k ≤ n → ¬xp k ≤ t) →
      interpIdx xp t n = i := by
  intro n
  induction n with
  | zero =>
    intro h1 _ _
    interval_cases i
    rfl
  | succ n ih =>
    intro h1 h2 h3
    rw [interpIdx_succ]
    by_cases hc : xp (n + 1) ≤ t
    · have : i = n + 1 := by
        by_contra hne
        exact h3 (n + 1) (by omega) (le_refl _) hc
      rw [if_pos hc, this]
    · rw [if_neg hc]
      have hi : i ≤ n := by
        rcases Nat.lt_or_ge i (n + 1) with h | h
        · omega
        · exfalso
          have : i = n + 1 := by omega
          rw [this] at h2
          exact hc h2
      exact ih hi h2 fun k hk1 hk2 => h3 k hk1 (by omega)

/-- Interpolation on a strictly increasing table evaluates on the
bracketing segment [xp i, xp (i+1)] by the linear formula. -/
lemma interpAt_bracket (xp fp : ℕ → ℝ) (t : ℝ) (i : ℕ) (hi : i ≤ 298)
    (hmono : ∀ a b : ℕ, a < b → b ≤ 299 → xp a < xp b)
    (h1 : xp i ≤ t) (h2 : t < xp (i + 1)) :
    interpAt xp fp t =
      fp i + (t - xp i) * (fp (i + 1) - fp i) / (xp (i + 1) - xp i) := by
  rw [interpAt]
  by_cases hb1 : t ≤ xp 0
  · rw [if_pos hb1]
    have hi0 : i = 0 := by
      by_contra h
      have : xp 0 < xp i := hmono 0 i (by omega) (by omega)
      linarith
    subst hi0
    have ht : t = xp 0 := le_antisymm hb1 h1
    rw [ht, sub_self, zero_mul, zero_div, add_zero]
  · rw [if_neg hb1]
    have hb2 : ¬xp 299 ≤ t := by
      intro hc
      have h299 : xp (i + 1) ≤ xp 299 := by
        rcases Nat.lt_or_ge (i + 1) 299 with h | h
        · exact (hmono (i + 1) 299 h (le_refl _)).le
        · have : i + 1 = 299 := by omega
          rw [this]
      linarith
    rw [if_neg hb2]
    have hidx : interpIdx xp t 298 = i := by
      apply interpIdx_spec xp t i 298 hi h1
      intro k hk1 hk2 hk3
      have : xp (i + 1) ≤ xp k := by
        rcases Nat.lt_or_ge (i + 1) k with h | h
        · exact (hmono (i + 1) k h (by omega)).le
        · have : i + 1 = k := by omega
          rw [this]
      linarith
    simp only [hidx]

/-- Value of the grid at node 0. -/
lemma X_zero : X 0 = 0 := by simp [X]

/-- Value of the grid at node 1. -/
lemma X_one : X 1 = π / 299 := by
  rw [X]
  norm_num

/-- Value of the grid at the last node. -/
lemma X_299 : X 299 = π := by
  rw [X]
  norm_num

/-- Grid values are nonnegative. -/
lemma X_nonneg (i : ℕ) : 0 ≤ X i := by
  rw [X]
  positivity

/-- Grid values up to node 299 are at most pi. -/
lemma X_le_pi {i : ℕ} (h : i ≤ 299) : X i ≤ π := by
  rw [X]
  rw [div_le_iff₀ (by norm_num)]
  have : (i : ℝ) ≤ 299 := by exact_mod_cast h
  nlinarith [pi_pos]

/-- The grid is strictly increasing. -/
lemma X_lt {a b : ℕ} (h : a < b) : X a < X b := by
  rw [X, X]
  have : (a : ℝ) < b := by exact_mod_cast h
  have hp : 0 < π / 299 := by positivity
  calc (a : ℝ) * π / 299 = a * (π / 299) := by ring
    _ < b * (π / 299) := by exact mul_lt_mul_of_pos_right this hp
    _ = b * π / 299 := by ring

/-- Cosine is strictly decreasing along the grid. -/
lemma cos_X_lt {a b : ℕ} (hab : a < b) (hb : b ≤ 299) :
    Real.cos (X b) < Real.cos (X a) :=
  Real.strictAntiOn_cos ⟨X_nonneg a, X_le_pi (by omega)⟩
    ⟨X_nonneg b, X_le_pi hb⟩ (X_lt hab)

/-- The level-0 table (four bases) as a cubic polynomial in cos. -/
lemma tpRec_zero_eq (i : ℕ) :
    tpRec 0 i = (Real.cos (X i) ^ 3 - 3 * Real.cos (X i)) / 3 := by
  show (2 * NEG_COSINE i + NEG_COSINE i * SINE i ^ 2) / 3 = _
  rw [NEG_COSINE, SINE, Real.sin_sq]
  ring

/-- The cubic c^3 - 3c is strictly decreasing on [-1, 1]. -/
lemma cubic_anti {a b : ℝ} (h1 : -1 ≤ a) (h2 : a < b) (h3 : b ≤ 1) :
    b ^ 3 - 3 * b < a ^ 3 - 3 * a := by
  have h4 : a * b < 1 := by nlinarith [sq_nonneg (a - b)]
  nlinarith [mul_pos (sub_pos.2 h2)
    (show (0:ℝ) < 3 - (a ^ 2 + a * b + b ^ 2) by nlinarith)]

/-- The level-0 table (the one built directly from NEG_COSINE, used by
the four-base SphereN) is strictly increasing along the grid. -/
lemma tpRec_zero_lt {a b : ℕ} (hab : a < b) (hb : b ≤ 299) :
    tpRec 0 a < tpRec 0 b := by
  rw [tpRec_zero_eq, tpRec_zero_eq]
  have h1 := cos_X_lt hab hb
  have h2 : -1 ≤ Real.cos (X b) := Real.neg_one_le_cos _
  have h3 : Real.cos (X a) ≤ 1 := Real.cos_le_one _
  have := cubic_anti h2 h1 h3
  linarith

/-- The Sphere3 table in sin and cos form. -/
lemma tp3_eq (i : ℕ) :
    tp3 i = 0.5 * (X i + Real.sin (X i) * Real.cos (X i)) := by
  rw [tp3, SINE, NEG_COSINE]
  ring

/-- The Sphere3 table is strictly increasing along the grid. -/
lemma tp3_lt {a b : ℕ} (hab : a < b) (hb : b ≤ 299) : tp3 a < tp3 b := by
  rw [tp3_eq, tp3_eq]
  set A := X a with hA
  set B := X b with hB
  have h0 : 0 ≤ A := X_nonneg a
  have h1 : B ≤ π := X_le_pi hb
  have h2 : A < B := X_lt hab
  have k1 : Real.sin (2 * B) =
      Real.sin (A + B) * Real.cos (B - A) + Real.cos (A + B) * Real.sin (B - A) := by
    rw [show 2 * B = (A + B) + (B - A) by ring]
    exact Real.sin_add _ _
  have k2 : Real.sin (2 * A) =
      Real.sin (A + B) * Real.cos (B - A) - Real.cos (A + B) * Real.sin (B - A) := by
    rw [show 2 * A = (A + B) - (B - A) by ring]
    exact Real.sin_sub _ _
  have e1 : Real.sin A * Real.cos A = Real.sin (2 * A) / 2 := by
    rw [Real.sin_two_mul]; ring
  have e2 : Real.sin B * Real.cos B = Real.sin (2 * B) / 2 := by
    rw [Real.sin_two_mul]; ring
  rw [e1, e2]
  have h5 : Real.sin (B - A) < B - A := Real.sin_lt (by linarith)
  have h6 : 0 ≤ Real.sin (B - A) :=
    Real.sin_nonneg_of_nonneg_of_le_pi (by linarith) (by linarith)
  have h7 : -1 ≤ Real.cos (A + B) := Real.neg_one_le_cos _
  have h9 : -Real.sin (B - A) ≤ Real.cos (A + B) * Real.sin (B - A) := by
    nlinarith [mul_nonneg (show (0:ℝ) ≤ Real.cos (A + B) + 1 by linarith) h6]
  linarith

/-- Taylor lower bound for sin on [0, 1]. -/
lemma sin_ge_taylor {x : ℝ} (h0 : 0 ≤ x) (h1 : x ≤ 1) :
    x - x ^ 3 / 6 - x ^ 4 * (5 / 96) ≤ Real.sin x := by
  have hb := Real.sin_bound (x := x) (by rwa [abs_of_nonneg h0])
  rw [abs_of_nonneg h0] at hb
  rw [abs_le] at hb
  linarith [hb.1]

/-- Taylor upper bound for sin on [0, 1]. -/
lemma sin_le_taylor {x : ℝ} (h0 : 0 ≤ x) (h1 : x ≤ 1) :
    Real.sin x ≤ x - x ^ 3 / 6 + x ^ 4 * (5 / 96) := by
  have hb := Real.sin_bound (x := x) (by rwa [abs_of_nonneg h0])
  rw [abs_of_nonneg h0] at hb
  rw [abs_le] at hb
  linarith [hb.2]

/-- Taylor lower bound for cos on [0, 1]. -/
lemma cos_ge_taylor {x : ℝ} (h0 : 0 ≤ x) (h1 : x ≤ 1) :
    1 - x ^ 2 / 2 - x ^ 4 * (5 / 96) ≤ Real.cos x := by
  have hb := Real.cos_bound (x := x) (by rwa [abs_of_nonneg h0])
  rw [abs_of_nonneg h0] at hb
  rw [abs_le] at hb
  linarith [hb.1]

/-- Unfolding equation of the recursive table construction. -/
lemma tpRec_succ (k i : ℕ) :
    tpRec (k + 1) i =
      (((k : ℝ) + 3) * tpRec k i + NEG_COSINE i * SINE i ^ (k + 3)) /
        ((k : ℝ) + 4) := rfl

/-- The level-1 table (five bases) in terms of the level-0 table. -/
lemma tpRec_one_eq (i : ℕ) :
    tpRec 1 i = (3 * tpRec 0 i + NEG_COSINE i * SINE i ^ 3) / 4 := by
  have h := tpRec_succ 0 i
  norm_num at h
  exact h

/-- The level-1 table at node 0. -/
lemma tpRec_one_zero : tpRec 1 0 = -(1 / 2) := by
  rw [tpRec_one_eq, tpRec_zero_eq, NEG_COSINE, SINE, X_zero, Real.cos_zero,
    Real.sin_zero]
  norm_num

/-- The recurrence of the claim, for the generator with m bases (m at
least 5): its table is built from the previous dimension's table with
weights (m-2)/(m-1) and exponent m-2. -/
lemma tpRec_recurrence (m : ℕ) (hm : 5 ≤ m) (i : ℕ) :
    tpRec (m - 4) i =
      (((m : ℝ) - 2) * tpRec (m - 5) i + NEG_COSINE i * SINE i ^ (m - 2)) /
        ((m : ℝ) - 1) := by
  obtain ⟨k, rfl⟩ : ∃ k, m = k + 5 := ⟨m - 5, by omega⟩
  have e1 : k + 5 - 4 = k + 1 := by omega
  have e2 : k + 5 - 5 = k := by omega
  have e3 : k + 5 - 2 = k + 3 := by omega
  rw [e1, e2, e3, tpRec_succ]
  have c1 : ((k : ℝ) + 3) = ((k + 5 : ℕ) : ℝ) - 2 := by push_cast; ring
  have c2 : ((k : ℝ) + 4) = ((k + 5 : ℕ) : ℝ) - 1 := by push_cast; ring
  rw [c1, c2]

/-- Counterexample to claim C4: the angle table of the five-base SphereN
(level 1, built by the recurrence from the previous dimension's table)
is not increasing along the grid: it strictly decreases from node 0 to
node 1. -/
theorem claim_C4_counterexample : tpRec 1 1 < tpRec 1 0 := by
  rw [tpRec_one_zero, tpRec_one_eq, tpRec_zero_eq, NEG_COSINE, SINE, X_one]
  set t := π / 299 with htdef
  have hpl : (3.141592:ℝ) < π := Real.pi_gt_d6
  have hpu : π < 3.141593 := Real.pi_lt_d6
  have ht1 : (0.0105069:ℝ) < t := by
    rw [htdef, lt_div_iff₀ (by norm_num : (0:ℝ) < 299)]
    linarith
  have ht2 : t < 0.010507 := by
    rw [htdef, div_lt_iff₀ (by norm_num : (0:ℝ) < 299)]
    linarith
  have ht0 : (0:ℝ) ≤ t := by linarith
  have htle1 : t ≤ 1 := by linarith
  have hp2 : t ^ 2 < 0.010507 ^ 2 := by
    exact pow_lt_pow_left₀ ht2 ht0 (by norm_num)
  have hp3 : t ^ 3 < 0.010507 ^ 3 := by
    exact pow_lt_pow_left₀ ht2 ht0 (by norm_num)
  have hp4 : t ^ 4 < 0.010507 ^ 4 := by
    exact pow_lt_pow_left₀ ht2 ht0 (by norm_num)
  have hsin := sin_ge_taylor ht0 htle1
  have hcos := cos_ge_taylor ht0 htle1
  have hslb : (0.0105067:ℝ) ≤ Real.sin t := by nlinarith
  have hclb : (0.9999448:ℝ) ≤ Real.cos t := by nlinarith
  have hs0 : (0:ℝ) ≤ Real.sin t := by linarith
  have m1 : (0.0105067:ℝ) ^ 2 ≤ Real.sin t ^ 2 := by
    exact pow_le_pow_left₀ (by norm_num) hslb 2
  have m2 : (0.0105067:ℝ) ^ 3 ≤ Real.sin t ^ 3 := by
    exact pow_le_pow_left₀ (by norm_num) hslb 3
  have key : (2:ℝ) < Real.cos t * (2 + Real.sin t ^ 2 + Real.sin t ^ 3) := by
    calc (2:ℝ) < 0.9999448 * (2 + 0.0105067 ^ 2 + 0.0105067 ^ 3) := by norm_num
      _ ≤ Real.cos t * (2 + Real.sin t ^ 2 + Real.sin t ^ 3) := by
          apply mul_le_mul hclb (by linarith) (by norm_num) (by linarith)
  have hsq : Real.sin t ^ 2 = 1 - Real.cos t ^ 2 := Real.sin_sq t
  nlinarith [key, hsq]

/-- Claim C4 as amended: the tables are built once at construction on
the fixed 300-node grid X evenly spaced over [0, pi], from the base
table -cos(X), by the stated elementwise recurrence; the table built
directly from the base table (four bases) is strictly increasing along
the grid, but tables of higher levels need not be (the five-base table
decreases from node 0 to node 1). -/
theorem claim_C4_amended :
    (∀ i : ℕ, X i = i * π / 299) ∧ X 0 = 0 ∧ X 299 = π ∧
      (∀ i : ℕ, tpRec 0 i =
        (2 * NEG_COSINE i + NEG_COSINE i * SINE i ^ 2) / 3) ∧
      (∀ m : ℕ, 5 ≤ m → ∀ i : ℕ,
        tpRec (m - 4) i =
          (((m : ℝ) - 2) * tpRec (m - 5) i + NEG_COSINE i * SINE i ^ (m - 2)) /
            ((m : ℝ) - 1)) ∧
      (∀ a b : ℕ, a < b → b ≤ 299 → tpRec 0 a < tpRec 0 b) :=
  ⟨fun _ => rfl, X_zero, X_299, fun _ => rfl, tpRec_recurrence,
    fun _ _ h1 h2 => tpRec_zero_lt h1 h2⟩

/-- Witness for claim C4 at m = 5, node 7, and grid nodes 0 and 299. -/
theorem claim_C4_witness :
    tpRec (5 - 4) 7 =
        ((((5:ℕ) : ℝ) - 2) * tpRec (5 - 5) 7 +
          NEG_COSINE 7 * SINE 7 ^ (5 - 2)) / (((5:ℕ) : ℝ) - 1) ∧
      tpRec 0 0 < tpRec 0 299 :=
  ⟨claim_C4_amended.2.2.2.2.1 5 (by norm_num) 7,
    claim_C4_amended.2.2.2.2.2 0 299 (by norm_num) (le_refl 299)⟩

/-- Witness for claim C10 on concrete valid states with bases 2, 3, 5,
7. -/
theorem claim_C10_witness :
    (((Sphere.init 2 3).pop).1.1 ^ 2 + ((Sphere.init 2 3).pop).1.2.1 ^ 2 +
      ((Sphere.init 2 3).pop).1.2.2 ^ 2 = 1) ∧
    sumSq ((SphereN.ofS3 (VdCorput.init 2) (Sphere3.init 3 5 7)).pop).1 = 1 ∧
    sumSq ((CylinN.ofCircle (VdCorput.init 2) (Circle.init 3)).pop).1 = 1 :=
  ⟨claim_C10_unit_norm.1 (Sphere.init 2 3) ⟨by decide, by decide⟩,
    claim_C10_unit_norm.2.2.2.1 _
      ⟨by decide, by decide, ⟨by decide, by decide⟩⟩,
    claim_C10_unit_norm.2.2.2.2 _ ⟨by decide, by decide⟩⟩


/-- Monotonicity of the triple-angle cubic 3t - 4t^3 on [0, 1/2]. -/
lemma cubic_sin_mono {a s : ℝ} (h0 : 0 ≤ a) (h1 : a ≤ s) (h2 : s ≤ 1 / 2) :
    3 * a - 4 * a ^ 3 ≤ 3 * s - 4 * s ^ 3 := by
  nlinarith [mul_nonneg (sub_nonneg.2 h1)
    (show (0:ℝ) ≤ 3 - 4 * (s ^ 2 + s * a + a ^ 2) by nlinarith)]

/-- Bound transfer across the triple-angle identity: interval bounds on
sin x inside [0, 1/2] give interval bounds on sin (3 x). -/
lemma sin_triple_bounds {x a b : ℝ} (hs1 : a ≤ Real.sin x)
    (hs2 : Real.sin x ≤ b) (ha : 0 ≤ a) (hb : b ≤ 1 / 2) :
    3 * a - 4 * a ^ 3 ≤ Real.sin (3 * x) ∧
      Real.sin (3 * x) ≤ 3 * b - 4 * b ^ 3 := by
  rw [Real.sin_three_mul]
  have hs0 : 0 ≤ Real.sin x := le_trans ha hs1
  exact ⟨cubic_sin_mono ha hs1 (le_trans hs2 hb),
    cubic_sin_mono hs0 hs2 hb⟩

/-- Monotone transfer of sin bounds on a subinterval of [0, pi/2]. -/
lemma sin_mono_interval {x a b : ℝ} (h1 : a ≤ x) (h2 : x ≤ b)
    (ha : 0 ≤ a) (hb : b ≤ 1.5707) :
    Real.sin a ≤ Real.sin x ∧ Real.sin x ≤ Real.sin b := by
  have hpi : (3.141592:ℝ) < π := Real.pi_gt_d6
  have hb2 : b ≤ π / 2 := by linarith
  have mono := Real.strictMonoOn_sin.monotoneOn
  constructor
  · exact mono ⟨by linarith, by linarith⟩ ⟨by linarith, by linarith⟩ h1
  · exact mono ⟨by linarith, by linarith⟩ ⟨by linarith, by linarith⟩ h2

/-- Rational bracketing of a square root by squaring the endpoints. -/
lemma sqrt_bounds_of_sq {a b c : ℝ} (ha : 0 ≤ a) (h1 : a ^ 2 < c)
    (h2 : c < b ^ 2) (hb : 0 ≤ b) :
    a < Real.sqrt c ∧ Real.sqrt c < b := by
  constructor
  · have := Real.sqrt_lt_sqrt (by positivity) h1
    rwa [Real.sqrt_sq ha] at this
  · have := Real.sqrt_lt_sqrt (by nlinarith [sq_nonneg a]) h2
    rwa [Real.sqrt_sq hb] at this

/-- Numeric bounds for the square root of 3. -/
lemma sqrt3_bounds : (1.7320508:ℝ) < Real.sqrt 3 ∧ Real.sqrt 3 < 1.7320509 :=
  sqrt_bounds_of_sq (by norm_num) (by norm_num) (by norm_num) (by norm_num)

/-- Numeric bounds for the square root of 1/5. -/
lemma sqrt5inv_bounds :
    (0.4472135:ℝ) < Real.sqrt (1 / 5) ∧ Real.sqrt (1 / 5) < 0.4472136 :=
  sqrt_bounds_of_sq (by norm_num) (by norm_num) (by norm_num) (by norm_num)

/-- Numeric bounds for the square root of 8/9. -/
lemma sqrt89_bounds :
    (0.942809041582:ℝ) < Real.sqrt (8 / 9) ∧
      Real.sqrt (8 / 9) < 0.942809041583 :=
  sqrt_bounds_of_sq (by norm_num) (by norm_num) (by norm_num) (by norm_num)

/-- First van der Corput draw for base 2. -/
lemma vdc_one_two : vdc 1 2 = 1 / 2 := by norm_num [vdc, vdcAux]

/-- First van der Corput draw for base 3. -/
lemma vdc_one_three : vdc 1 3 = 1 / 3 := by norm_num [vdc, vdcAux]

/-- First van der Corput draw for base 5. -/
lemma vdc_one_five : vdc 1 5 = 1 / 5 := by norm_num [vdc, vdcAux]

/-- First van der Corput draw for base 7. -/
lemma vdc_one_seven : vdc 1 7 = 1 / 7 := by norm_num [vdc, vdcAux]


/-- Numeric bounds for sin(2 pi / 7): Taylor expansion at 2 pi / 189 followed by three triple-angle steps. -/
lemma sin_two_pi_div_seven_bounds :
    (0.781830288683:ℝ) ≤ Real.sin (2 * π / 7) ∧
      Real.sin (2 * π / 7) ≤ 0.781832610137 := by
  have hpl : (3.141592:ℝ) < π := Real.pi_gt_d6
  have hpu : π < 3.141593 := Real.pi_lt_d6
  set y : ℝ := 2 * π / 189 with hy
  have hylo : (0.033244359788:ℝ) < y := by
    rw [hy, lt_div_iff₀ (by norm_num : (0:ℝ) < 189)]
    linarith
  have hyhi : y < 0.033244370371 := by
    rw [hy, div_lt_iff₀ (by norm_num : (0:ℝ) < 189)]
    linarith
  have hy0 : (0:ℝ) ≤ y := by linarith
  have hy1 : y ≤ 1 := by linarith
  have hp3u : y ^ 3 < (0.033244370371:ℝ) ^ 3 := pow_lt_pow_left₀ hyhi hy0 (by norm_num)
  have hp3l : (0.033244359788:ℝ) ^ 3 < y ^ 3 :=
    pow_lt_pow_left₀ hylo (by norm_num) (by norm_num)
  have hp4u : y ^ 4 < (0.033244370371:ℝ) ^ 4 := pow_lt_pow_left₀ hyhi hy0 (by norm_num)
  have hTl := sin_ge_taylor hy0 hy1
  have hTu := sin_le_taylor hy0 hy1
  have b0l : (0.033238172623:ℝ) ≤ Real.sin y := by nlinarith
  have b0u : Real.sin y ≤ 0.033238310447 := by nlinarith
  have t1 := sin_triple_bounds b0l b0u (by norm_num) (by norm_num)
  have b1l : (0.099567634911:ℝ) ≤ Real.sin (3 * y) := le_trans (by norm_num) t1.1
  have b1u : Real.sin (3 * y) ≤ 0.099568046557 := le_trans t1.2 (by norm_num)
  have t2 := sin_triple_bounds b1l b1u (by norm_num) (by norm_num)
  have b2l : (0.294754564539:ℝ) ≤ Real.sin (3 * (3 * y)) := le_trans (by norm_num) t2.1
  have b2u : Real.sin (3 * (3 * y)) ≤ 0.294755750507 := le_trans t2.2 (by norm_num)
  have t3 := sin_triple_bounds b2l b2u (by norm_num) (by norm_num)
  have e : 3 * (3 * (3 * y)) = 2 * π / 7 := by rw [hy]; ring
  rw [e] at t3
  exact ⟨le_trans (by norm_num) t3.1, le_trans t3.2 (by norm_num)⟩

/-- Numeric bounds for sin(110 pi / 299), which is sin of twice the grid node 55, for the Sphere3 table. -/
lemma sin_110_pi_div_299_bounds :
    (0.915103638349:ℝ) ≤ Real.sin (110 * π / 299) ∧
      Real.sin (110 * π / 299) ≤ 0.915107598152 := by
  have hpl : (3.141592:ℝ) < π := Real.pi_gt_d6
  have hpu : π < 3.141593 := Real.pi_lt_d6
  set y : ℝ := 110 * π / 8073 with hy
  have hylo : (0.04280628267:ℝ) < y := by
    rw [hy, lt_div_iff₀ (by norm_num : (0:ℝ) < 8073)]
    linarith
  have hyhi : y < 0.042806296297 := by
    rw [hy, div_lt_iff₀ (by norm_num : (0:ℝ) < 8073)]
    linarith
  have hy0 : (0:ℝ) ≤ y := by linarith
  have hy1 : y ≤ 1 := by linarith
  have hp3u : y ^ 3 < (0.042806296297:ℝ) ^ 3 := pow_lt_pow_left₀ hyhi hy0 (by norm_num)
  have hp3l : (0.04280628267:ℝ) ^ 3 < y ^ 3 :=
    pow_lt_pow_left₀ hylo (by norm_num) (by norm_num)
  have hp4u : y ^ 4 < (0.042806296297:ℝ) ^ 4 := pow_lt_pow_left₀ hyhi hy0 (by norm_num)
  have hTl := sin_ge_taylor hy0 hy1
  have hTu := sin_le_taylor hy0 hy1
  have b0l : (0.042793034901:ℝ) ≤ Real.sin y := by nlinarith
  have b0u : Real.sin y ≤ 0.042793398293 := by nlinarith
  have t1 := sin_triple_bounds b0l b0u (by norm_num) (by norm_num)
  have b1l : (0.128065646777:ℝ) ≤ Real.sin (3 * y) := le_trans (by norm_num) t1.1
  have b1u : Real.sin (3 * y) ≤ 0.128066728968 := le_trans t1.2 (by norm_num)
  have t2 := sin_triple_bounds b1l b1u (by norm_num) (by norm_num)
  have b2l : (0.375795419028:ℝ) ≤ Real.sin (3 * (3 * y)) := le_trans (by norm_num) t2.1
  have b2u : Real.sin (3 * (3 * y)) ≤ 0.375798452615 := le_trans t2.2 (by norm_num)
  have t3 := sin_triple_bounds b2l b2u (by norm_num) (by norm_num)
  have e : 3 * (3 * (3 * y)) = 110 * π / 299 := by rw [hy]; ring
  rw [e] at t3
  exact ⟨le_trans (by norm_num) t3.1, le_trans t3.2 (by norm_num)⟩

/-- Numeric bounds for sin(112 pi / 299), which is sin of twice the grid node 56, for the Sphere3 table. -/
lemma sin_112_pi_div_299_bounds :
    (0.92337407135:ℝ) ≤ Real.sin (112 * π / 299) ∧
      Real.sin (112 * π / 299) ≤ 0.923378115325 := by
  have hpl : (3.141592:ℝ) < π := Real.pi_gt_d6
  have hpu : π < 3.141593 := Real.pi_lt_d6
  set y : ℝ := 112 * π / 8073 with hy
  have hylo : (0.043584578719:ℝ) < y := by
    rw [hy, lt_div_iff₀ (by norm_num : (0:ℝ) < 8073)]
    linarith
  have hyhi : y < 0.043584592593 := by
    rw [hy, div_lt_iff₀ (by norm_num : (0:ℝ) < 8073)]
    linarith
  have hy0 : (0:ℝ) ≤ y := by linarith
  have hy1 : y ≤ 1 := by linarith
  have hp3u : y ^ 3 < (0.043584592593:ℝ) ^ 3 := pow_lt_pow_left₀ hyhi hy0 (by norm_num)
  have hp3l : (0.043584578719:ℝ) ^ 3 < y ^ 3 :=
    pow_lt_pow_left₀ hylo (by norm_num) (by norm_num)
  have hp4u : y ^ 4 < (0.043584592593:ℝ) ^ 4 := pow_lt_pow_left₀ hyhi hy0 (by norm_num)
  have hTl := sin_ge_taylor hy0 hy1
  have hTu := sin_le_taylor hy0 hy1
  have b0l : (0.04357059177:ℝ) ≤ Real.sin y := by nlinarith
  have b0u : Real.sin y ≤ 0.043570981548 := by nlinarith
  have t1 := sin_triple_bounds b0l b0u (by norm_num) (by norm_num)
  have b1l : (0.13038091828:ℝ) ≤ Real.sin (3 * y) := le_trans (by norm_num) t1.1
  have b1u : Real.sin (3 * y) ≤ 0.130382078735 := le_trans t1.2 (by norm_num)
  have t2 := sin_triple_bounds b1l b1u (by norm_num) (by norm_num)
  have b2l : (0.382277278037:ℝ) ≤ Real.sin (3 * (3 * y)) := le_trans (by norm_num) t2.1
  have b2u : Real.sin (3 * (3 * y)) ≤ 0.38228052268 := le_trans t2.2 (by norm_num)
  have t3 := sin_triple_bounds b2l b2u (by norm_num) (by norm_num)
  have e : 3 * (3 * (3 * y)) = 112 * π / 299 := by rw [hy]; ring
  rw [e] at t3
  exact ⟨le_trans (by norm_num) t3.1, le_trans t3.2 (by norm_num)⟩

/-- Numeric lower bound for sin at the rational lower end of the interpolated Sphere3 angle. -/
lemma sin_xiA_bound :
    (0.553300190742:ℝ) ≤ Real.sin 0.586321262121 ∧ Real.sin 0.586321262121 ≤ 0.553300711868 := by
  have hy0 : (0:ℝ) ≤ (0.586321262121:ℝ) / 27 := by norm_num
  have hy1 : (0.586321262121:ℝ) / 27 ≤ 1 := by norm_num
  have hTl := sin_ge_taylor hy0 hy1
  have hTu := sin_le_taylor hy0 hy1
  have b0l : (0.02171388399:ℝ) ≤ Real.sin ((0.586321262121:ℝ) / 27) := le_trans (by norm_num) hTl
  have b0u : Real.sin ((0.586321262121:ℝ) / 27) ≤ 0.021713907155 := le_trans hTu (by norm_num)
  have t1 := sin_triple_bounds b0l b0u (by norm_num) (by norm_num)
  have b1l : (0.065100700213:ℝ) ≤ Real.sin (3 * ((0.586321262121:ℝ) / 27)) := le_trans (by norm_num) t1.1
  have b1u : Real.sin (3 * ((0.586321262121:ℝ) / 27)) ≤ 0.065100769578 := le_trans t1.2 (by norm_num)
  have t2 := sin_triple_bounds b1l b1u (by norm_num) (by norm_num)
  have b2l : (0.194198487224:ℝ) ≤ Real.sin (3 * (3 * ((0.586321262121:ℝ) / 27))) := le_trans (by norm_num) t2.1
  have b2u : Real.sin (3 * (3 * ((0.586321262121:ℝ) / 27))) ≤ 0.194198691792 := le_trans t2.2 (by norm_num)
  have t3 := sin_triple_bounds b2l b2u (by norm_num) (by norm_num)
  have e : 3 * (3 * (3 * ((0.586321262121:ℝ) / 27))) = (0.586321262121:ℝ) := by norm_num
  rw [e] at t3
  exact ⟨le_trans (by norm_num) t3.1, le_trans t3.2 (by norm_num)⟩

/-- Numeric upper bound for sin at the rational upper end of the interpolated Sphere3 angle. -/
lemma sin_xiB_bound :
    (0.553303938227:ℝ) ≤ Real.sin 0.586325761009 ∧ Real.sin 0.586325761009 ≤ 0.553304459375 := by
  have hy0 : (0:ℝ) ≤ (0.586325761009:ℝ) / 27 := by norm_num
  have hy1 : (0.586325761009:ℝ) / 27 ≤ 1 := by norm_num
  have hTl := sin_ge_taylor hy0 hy1
  have hTu := sin_le_taylor hy0 hy1
  have b0l : (0.021714050576:ℝ) ≤ Real.sin ((0.586325761009:ℝ) / 27) := le_trans (by norm_num) hTl
  have b0u : Real.sin ((0.586325761009:ℝ) / 27) ≤ 0.021714073742 := le_trans hTu (by norm_num)
  have t1 := sin_triple_bounds b0l b0u (by norm_num) (by norm_num)
  have b1l : (0.065101199029:ℝ) ≤ Real.sin (3 * ((0.586325761009:ℝ) / 27)) := le_trans (by norm_num) t1.1
  have b1u : Real.sin (3 * ((0.586325761009:ℝ) / 27)) ≤ 0.065101268397 := le_trans t1.2 (by norm_num)
  have t2 := sin_triple_bounds b1l b1u (by norm_num) (by norm_num)
  have b2l : (0.194199958303:ℝ) ≤ Real.sin (3 * (3 * ((0.586325761009:ℝ) / 27))) := le_trans (by norm_num) t2.1
  have b2u : Real.sin (3 * (3 * ((0.586325761009:ℝ) / 27))) ≤ 0.19420016288 := le_trans t2.2 (by norm_num)
  have t3 := sin_triple_bounds b2l b2u (by norm_num) (by norm_num)
  have e : 3 * (3 * (3 * ((0.586325761009:ℝ) / 27))) = (0.586325761009:ℝ) := by norm_num
  rw [e] at t3
  exact ⟨le_trans (by norm_num) t3.1, le_trans t3.2 (by norm_num)⟩



/-- Claim C6: the Sphere pop draws u from its radix sequence, sets
cosphi = 2u - 1 and sinphi = sqrt(1 - cosphi^2), draws (s, c) from the
owned Circle generator and returns (sinphi s, sinphi c, cosphi); for
bases (2, 3) the first coordinate of the first pop is approximately
0.8660254038 (within 1e-5; the exact value is sqrt(3)/2). -/
theorem claim_C6_sphere_pop :
    (∀ σ : Sphere, (σ.pop).1 =
      (Real.sqrt (1 - (2 * vdc (σ.vdcgen.count + 1) σ.vdcgen.base - 1) ^ 2) *
          Real.sin (vdc (σ.cirgen.vdc.count + 1) σ.cirgen.vdc.base * TWO_PI),
        Real.sqrt (1 - (2 * vdc (σ.vdcgen.count + 1) σ.vdcgen.base - 1) ^ 2) *
          Real.cos (vdc (σ.cirgen.vdc.count + 1) σ.cirgen.vdc.base * TWO_PI),
        2 * vdc (σ.vdcgen.count + 1) σ.vdcgen.base - 1)) ∧
      |((Sphere.init 2 3).pop).1.1 - 0.8660254038| < 1 / 100000 := by
  constructor
  · intro σ
    rfl
  · have e : ((Sphere.init 2 3).pop).1.1 =
        Real.sqrt (1 - (2 * vdc 1 2 - 1) ^ 2) *
          Real.sin (vdc 1 3 * TWO_PI) := rfl
    rw [e, vdc_one_two, vdc_one_three]
    have e2 : (1:ℝ) - (2 * (1 / 2) - 1) ^ 2 = 1 := by norm_num
    rw [e2, Real.sqrt_one, one_mul]
    have e3 : (1 / 3 : ℝ) * TWO_PI = π - π / 3 := by rw [TWO_PI]; ring
    rw [e3, Real.sin_pi_sub, Real.sin_pi_div_three]
    obtain ⟨q1, q2⟩ := sqrt3_bounds
    rw [abs_lt]
    constructor <;> [linarith; linarith]

/-- Witness for claim C6 on an advanced Sphere state: the structural
formula holds there too. -/
theorem claim_C6_witness :
    ((⟨⟨4, 2⟩, ⟨⟨9, 3⟩⟩⟩ : Sphere).pop).1 =
      (Real.sqrt (1 - (2 * vdc 5 2 - 1) ^ 2) * Real.sin (vdc 10 3 * TWO_PI),
        Real.sqrt (1 - (2 * vdc 5 2 - 1) ^ 2) * Real.cos (vdc 10 3 * TWO_PI),
        2 * vdc 5 2 - 1) :=
  claim_C6_sphere_pop.1 ⟨⟨4, 2⟩, ⟨⟨9, 3⟩⟩⟩

/-- Claim C7: the Sphere3Hopf pop draws u0, u1, u2, sets phi = 2 pi u0,
psy = 2 pi u1, cos(eta) = sqrt(u2), sin(eta) = sqrt(1 - u2), and
returns the Hopf 4-vector; for bases (2, 3, 5) the first coordinate of
the first pop is approximately -0.2236067977 (within 1e-5; the exact
value is -sqrt(1/5)/2). -/
theorem claim_C7_hopf_pop :
    (∀ σ : Sphere3Hopf, (σ.pop).1 =
      (Real.sqrt (vdc (σ.vdc2.count + 1) σ.vdc2.base) *
          Real.cos (vdc (σ.vdc1.count + 1) σ.vdc1.base * TWO_PI),
        Real.sqrt (vdc (σ.vdc2.count + 1) σ.vdc2.base) *
          Real.sin (vdc (σ.vdc1.count + 1) σ.vdc1.base * TWO_PI),
        Real.sqrt (1 - vdc (σ.vdc2.count + 1) σ.vdc2.base) *
          Real.cos (vdc (σ.vdc0.count + 1) σ.vdc0.base * TWO_PI +
            vdc (σ.vdc1.count + 1) σ.vdc1.base * TWO_PI),
        Real.sqrt (1 - vdc (σ.vdc2.count + 1) σ.vdc2.base) *
          Real.sin (vdc (σ.vdc0.count + 1) σ.vdc0.base * TWO_PI +
            vdc (σ.vdc1.count + 1) σ.vdc1.base * TWO_PI))) ∧
      |((Sphere3Hopf.init 2 3 5).pop).1.1 - -0.2236067977| < 1 / 100000 := by
  constructor
  · intro σ
    rfl
  · have e : ((Sphere3Hopf.init 2 3 5).pop).1.1 =
        Real.sqrt (vdc 1 5) * Real.cos (vdc 1 3 * TWO_PI) := rfl
    rw [e, vdc_one_three, vdc_one_five]
    have e3 : (1 / 3 : ℝ) * TWO_PI = π - π / 3 := by rw [TWO_PI]; ring
    rw [e3, Real.cos_pi_sub, Real.cos_pi_div_three]
    obtain ⟨q1, q2⟩ := sqrt5inv_bounds
    rw [abs_lt]
    constructor <;> [nlinarith; nlinarith]

/-- Witness for claim C7 on an advanced Sphere3Hopf state. -/
theorem claim_C7_witness :
    ((⟨⟨1, 2⟩, ⟨2, 3⟩, ⟨3, 5⟩⟩ : Sphere3Hopf).pop).1 =
      (Real.sqrt (vdc 4 5) * Real.cos (vdc 3 3 * TWO_PI),
        Real.sqrt (vdc 4 5) * Real.sin (vdc 3 3 * TWO_PI),
        Real.sqrt (1 - vdc 4 5) * Real.cos (vdc 2 2 * TWO_PI + vdc 3 3 * TWO_PI),
        Real.sqrt (1 - vdc 4 5) * Real.sin (vdc 2 2 * TWO_PI + vdc 3 3 * TWO_PI)) :=
  claim_C7_hopf_pop.1 ⟨⟨1, 2⟩, ⟨2, 3⟩, ⟨3, 5⟩⟩



/-- The CylinN generator state constructed from bases (2, 3, 5, 7). -/
def cylinN2357 : CylinN :=
  .ofCylin (VdCorput.init 2)
    (.ofCylin (VdCorput.init 3) (.ofCircle (VdCorput.init 5) (Circle.init 7)))

/-- Claim C5: the CylinN pop at its own level uses no table and no
angle inversion: it maps its draw linearly to cosphi = 2u - 1, sets
sinphi = sqrt(1 - cosphi^2), recursively pops the nested generator,
scales that result by sinphi and appends cosphi; and for bases
(2, 3, 5, 7) the first coordinate of the first pop is approximately
0.5896942325 (within 1e-5; the exact value is
(8 sqrt(2) / 15) sin(2 pi / 7)). -/
theorem claim_C5_cylin_pop :
    (∀ (v : VdCorput) (c : CylinN),
      (CylinN.pop (.ofCylin v c)).1 =
        ((CylinN.pop c).1.map fun y =>
          Real.sqrt (1 - (2 * vdc (v.count + 1) v.base - 1) ^ 2) * y) ++
          [2 * vdc (v.count + 1) v.base - 1]) ∧
      CylinN.init [2, 3, 5, 7] = some cylinN2357 ∧
      |((CylinN.pop cylinN2357).1.getD 0 0) - 0.5896942325| < 1 / 100000 := by
  refine ⟨fun v c => rfl, rfl, ?_⟩
  have e : (CylinN.pop cylinN2357).1.getD 0 0 =
      Real.sqrt (1 - (2 * vdc 1 2 - 1) ^ 2) *
        (Real.sqrt (1 - (2 * vdc 1 3 - 1) ^ 2) *
          (Real.sqrt (1 - (2 * vdc 1 5 - 1) ^ 2) *
            Real.sin (vdc 1 7 * TWO_PI))) := rfl
  rw [e, vdc_one_two, vdc_one_three, vdc_one_five, vdc_one_seven]
  have e1 : (1:ℝ) - (2 * (1 / 2) - 1) ^ 2 = 1 := by norm_num
  have e2 : (1:ℝ) - (2 * (1 / 3) - 1) ^ 2 = 8 / 9 := by norm_num
  have e3 : (1:ℝ) - (2 * (1 / 5) - 1) ^ 2 = 16 / 25 := by norm_num
  rw [e1, e2, e3, Real.sqrt_one, one_mul]
  rw [show ((16:ℝ) / 25) = (4 / 5) ^ 2 by norm_num,
    Real.sqrt_sq (by norm_num : (0:ℝ) ≤ 4 / 5)]
  have e4 : (1 / 7 : ℝ) * TWO_PI = 2 * π / 7 := by rw [TWO_PI]; ring
  rw [e4]
  obtain ⟨u1, u2⟩ := sqrt89_bounds
  obtain ⟨w1, w2⟩ := sin_two_pi_div_seven_bounds
  have hw0 : (0:ℝ) ≤ Real.sin (2 * π / 7) := by linarith
  have hu0 : (0:ℝ) ≤ Real.sqrt (8 / 9) := Real.sqrt_nonneg _
  have m1 : (4 / 5 : ℝ) * Real.sin (2 * π / 7) ≤ (4 / 5) * 0.781832610137 := by
    linarith
  have m2 : (0.942809041582 : ℝ) * ((4 / 5) * 0.781830288683) ≤
      Real.sqrt (8 / 9) * ((4 / 5) * Real.sin (2 * π / 7)) := by
    apply mul_le_mul u1.le (by linarith) (by norm_num) hu0
  have m3 : Real.sqrt (8 / 9) * ((4 / 5) * Real.sin (2 * π / 7)) ≤
      (0.942809041583 : ℝ) * ((4 / 5) * 0.781832610137) := by
    apply mul_le_mul u2.le m1 (by linarith) (by norm_num)
  rw [abs_lt]
  constructor <;> [linarith; linarith]

/-- Witness for claim C5: the structural formula at an advanced
recursive state. -/
theorem claim_C5_witness :
    (CylinN.pop (.ofCylin ⟨6, 3⟩ (.ofCircle ⟨2, 5⟩ (Circle.init 7)))).1 =
      ((CylinN.pop (.ofCircle ⟨2, 5⟩ (Circle.init 7))).1.map fun y =>
        Real.sqrt (1 - (2 * vdc 7 3 - 1) ^ 2) * y) ++ [2 * vdc 7 3 - 1] :=
  claim_C5_cylin_pop.1 ⟨6, 3⟩ (.ofCircle ⟨2, 5⟩ (Circle.init 7))



/-- The SphereN generator state constructed from bases (2, 3, 5, 7):
the four-base case, whose nested generator is a Sphere3 on (3, 5, 7). -/
def sphereN2357 : SphereN := .ofS3 (VdCorput.init 2) (Sphere3.init 3 5 7)

/-- First coordinate of the first pop of the (2, 3, 5, 7) SphereN, as a
closed expression in the embedding primitives. -/
lemma sphereN2357_first :
    (SphereN.pop sphereN2357).1.getD 0 0 =
      Real.sin (interpAt (tpRec 0) X
          (tpRec 0 0 + (tpRec 0 299 - tpRec 0 0) * vdc 1 2)) *
        (Real.sin (interpAt tp3 X (π / 2 * vdc 1 3)) *
          (Real.sqrt (1 - (2 * vdc 1 5 - 1) ^ 2) *
            Real.sin (vdc 1 7 * TWO_PI))) := rfl

/-- Counterexample to claim C3: the first coordinate of the first pop
of SphereN with bases (2, 3, 5, 7) is not approximately 0.8966646826
(that value belongs to Sphere3 with bases (2, 3, 5)); the coordinate is
bounded by 4/5 in absolute value, more than 1e-5 away. -/
theorem claim_C3_counterexample :
    1 / 100000 < |(SphereN.pop sphereN2357).1.getD 0 0 - 0.8966646826| := by
  have hb : (SphereN.pop sphereN2357).1.getD 0 0 ≤ 4 / 5 := by
    rw [sphereN2357_first, vdc_one_five, vdc_one_seven]
    rw [show (1:ℝ) - (2 * (1 / 5) - 1) ^ 2 = (4 / 5) ^ 2 by norm_num,
      Real.sqrt_sq (by norm_num : (0:ℝ) ≤ 4 / 5)]
    set s1 := Real.sin (interpAt (tpRec 0) X
      (tpRec 0 0 + (tpRec 0 299 - tpRec 0 0) * vdc 1 2)) with hs1
    set s2 := Real.sin (interpAt tp3 X (π / 2 * vdc 1 3)) with hs2
    set s3 := Real.sin ((1 / 7 : ℝ) * TWO_PI) with hs3
    have a1 : |s1| ≤ 1 := Real.abs_sin_le_one _
    have a2 : |s2| ≤ 1 := Real.abs_sin_le_one _
    have a3 : |s3| ≤ 1 := Real.abs_sin_le_one _
    have p1 : (4 / 5 : ℝ) * |s3| ≤ 4 / 5 :=
      mul_le_of_le_one_right (by norm_num) a3
    have p2 : |s2| * ((4 / 5) * |s3|) ≤ 4 / 5 :=
      le_trans (mul_le_of_le_one_left (by positivity) a2) p1
    have p3 : |s1| * (|s2| * ((4 / 5) * |s3|)) ≤ 4 / 5 :=
      le_trans (mul_le_of_le_one_left (by positivity) a1) p2
    calc s1 * (s2 * (4 / 5 * s3)) ≤ |s1 * (s2 * (4 / 5 * s3))| := le_abs_self _
      _ = |s1| * (|s2| * ((4 / 5) * |s3|)) := by
          rw [abs_mul, abs_mul, abs_mul]
          norm_num
      _ ≤ 4 / 5 := p3
  calc (1 / 100000 : ℝ) < 0.8966646826 - 4 / 5 := by norm_num
    _ ≤ 0.8966646826 - (SphereN.pop sphereN2357).1.getD 0 0 := by linarith
    _ ≤ |(SphereN.pop sphereN2357).1.getD 0 0 - 0.8966646826| := by
        rw [abs_sub_comm]
        exact le_abs_self _

set_option maxHeartbeats 2000000 in
/-- Claim C3 as amended: for SphereN constructed with bases
(2, 3, 5, 7), the first coordinate of the first pop() is approximately
0.3460713587 (within 1e-5).  The outer level draws 1/2, whose target
falls exactly at the symmetric midpoint of the level-0 table, so the
outer angle is pi/2 and the outer scale is sin(pi/2) = 1; the nested
Sphere3 draws 1/3, inverting its table between grid nodes 55 and 56. -/
theorem claim_C3_amended :
    SphereN.init [2, 3, 5, 7] = some sphereN2357 ∧
      |(SphereN.pop sphereN2357).1.getD 0 0 - 0.3460713587| < 1 / 100000 := by
  refine ⟨rfl, ?_⟩
  rw [sphereN2357_first, vdc_one_two, vdc_one_three, vdc_one_five,
    vdc_one_seven]
  have hpl : (3.141592:ℝ) < π := Real.pi_gt_d6
  have hpu : π < 3.141593 := Real.pi_lt_d6
  -- the outer level: target 0, bracketing nodes 149 and 150, angle pi/2
  have t00 : tpRec 0 0 = -(2 / 3) := by
    rw [tpRec_zero_eq, X_zero, Real.cos_zero]
    norm_num
  have t0299 : tpRec 0 299 = 2 / 3 := by
    rw [tpRec_zero_eq, X_299, Real.cos_pi]
    norm_num
  have eti : tpRec 0 0 + (tpRec 0 299 - tpRec 0 0) * (1 / 2 : ℝ) = 0 := by
    rw [t00, t0299]
    norm_num
  rw [eti]
  have hX149 : X 149 < π / 2 := by
    rw [X]
    push_cast
    nlinarith [pi_pos]
  have hc149 : 0 < Real.cos (X 149) :=
    Real.cos_pos_of_mem_Ioo ⟨by nlinarith [X_nonneg 149, pi_pos], hX149⟩
  have h149 : tpRec 0 149 < 0 := by
    rw [tpRec_zero_eq]
    have hle := Real.cos_le_one (X 149)
    have hc2 : Real.cos (X 149) ^ 2 ≤ 1 := by nlinarith
    have hc3 : Real.cos (X 149) ^ 3 ≤ Real.cos (X 149) := by
      nlinarith [mul_le_mul_of_nonneg_left hc2 hc149.le]
    linarith
  have e150 : X 150 = π - X 149 := by
    rw [X, X]
    push_cast
    ring
  have t150 : tpRec 0 150 = -tpRec 0 149 := by
    rw [tpRec_zero_eq, tpRec_zero_eq, e150, Real.cos_pi_sub]
    ring
  have h150 : (0:ℝ) < tpRec 0 150 := by
    rw [t150]
    linarith
  have hbr := interpAt_bracket (tpRec 0) X 0 149 (by norm_num)
    (fun a b hab hble => tpRec_zero_lt hab hble) h149.le h150
  norm_num at hbr
  have hne : tpRec 0 149 ≠ 0 := ne_of_lt h149
  have exin : interpAt (tpRec 0) X 0 = π / 2 := by
    rw [hbr, t150, e150]
    have key : -(tpRec 0 149 * (π - X 149 - X 149)) /
        (-tpRec 0 149 - tpRec 0 149) = (π - X 149 - X 149) / 2 := by
      rw [show -tpRec 0 149 - tpRec 0 149 = -2 * tpRec 0 149 by ring]
      rw [show -(tpRec 0 149 * (π - X 149 - X 149)) =
          -2 * tpRec 0 149 * ((π - X 149 - X 149) / 2) by ring]
      exact mul_div_cancel_left₀ _ (mul_ne_zero (by norm_num) hne)
    rw [key]
    ring
  rw [exin, Real.sin_pi_div_two, one_mul]
  -- the Sphere3 level: target pi/6, bracketing nodes 55 and 56
  rw [show π / 2 * (1 / 3 : ℝ) = π / 6 by ring]
  have hx55 : X 55 = 55 * π / 299 := by rw [X]; norm_num
  have hx56 : X 56 = 56 * π / 299 := by rw [X]; norm_num
  have hx55lo : (0.577884816053:ℝ) < X 55 := by
    rw [hx55, lt_div_iff₀ (by norm_num : (0:ℝ) < 299)]
    linarith
  have hx55hi : X 55 < 0.577885 := by
    rw [hx55, div_lt_iff₀ (by norm_num : (0:ℝ) < 299)]
    linarith
  have etp55 : tp3 55 = 0.5 * (X 55 + Real.sin (110 * π / 299) / 2) := by
    rw [tp3_eq]
    rw [show Real.sin (X 55) * Real.cos (X 55) =
        Real.sin (110 * π / 299) / 2 by
      rw [show (110:ℝ) * π / 299 = 2 * X 55 by rw [hx55]; ring,
        Real.sin_two_mul]
      ring]
  have etp56 : tp3 56 = 0.5 * (X 56 + Real.sin (112 * π / 299) / 2) := by
    rw [tp3_eq]
    rw [show Real.sin (X 56) * Real.cos (X 56) =
        Real.sin (112 * π / 299) / 2 by
      rw [show (112:ℝ) * π / 299 = 2 * X 56 by rw [hx56]; ring,
        Real.sin_two_mul]
      ring]
  obtain ⟨sa110, sb110⟩ := sin_110_pi_div_299_bounds
  obtain ⟨sa112, sb112⟩ := sin_112_pi_div_299_bounds
  have hx56lo : (0.588391812709:ℝ) < X 56 := by
    rw [hx56, lt_div_iff₀ (by norm_num : (0:ℝ) < 299)]
    linarith
  have hx56hi : X 56 < 0.588392 := by
    rw [hx56, div_lt_iff₀ (by norm_num : (0:ℝ) < 299)]
    linarith
  have htp55lo : (0.517718317613:ℝ) < tp3 55 := by
    rw [etp55]
    linarith
  have htp55hi : tp3 55 < 0.517719399538 := by
    rw [etp55]
    linarith
  have htp56lo : (0.525039424192:ℝ) < tp3 56 := by
    rw [etp56]
    linarith
  have htp56hi : tp3 56 < 0.525040528832 := by
    rw [etp56]
    linarith
  have hb1 : tp3 55 ≤ π / 6 := by linarith
  have hb2 : π / 6 < tp3 56 := by linarith
  have hbr3 := interpAt_bracket tp3 X (π / 6) 55 (by norm_num)
    (fun a b hab hble => tp3_lt hab hble) hb1 hb2
  norm_num at hbr3
  rw [hbr3]
  rw [show X 56 - X 55 = π / 299 by rw [hx55, hx56]; ring]
  have hh1 : (0.010506996655:ℝ) < π / 299 := by
    rw [lt_div_iff₀ (by norm_num : (0:ℝ) < 299)]
    linarith
  have hh2 : π / 299 < 0.010507 := by
    rw [div_lt_iff₀ (by norm_num : (0:ℝ) < 299)]
    linarith
  have hN1 : (0.005879267128:ℝ) < π / 6 - tp3 55 := by linarith
  have hN2 : π / 6 - tp3 55 < 0.005880515721 := by linarith
  have hD1 : (0.007320024654:ℝ) < tp3 56 - tp3 55 := by linarith
  have hD2 : tp3 56 - tp3 55 < 0.007322211219 := by linarith
  have hFnum_lo : (0.005879267128 * 0.010506996655 : ℝ) ≤
      (π / 6 - tp3 55) * (π / 299) :=
    mul_le_mul hN1.le hh1.le (by norm_num) (by linarith)
  have hFnum_hi : (π / 6 - tp3 55) * (π / 299) ≤
      (0.005880515721 * 0.010507 : ℝ) :=
    mul_le_mul hN2.le hh2.le (by positivity) (by norm_num)
  have hF_lo : (0.005879267128 * 0.010506996655 : ℝ) / 0.007322211219 ≤
      (π / 6 - tp3 55) * (π / 299) / (tp3 56 - tp3 55) :=
    div_le_div₀ (by positivity) hFnum_lo (by linarith) hD2.le
  have hF_hi : (π / 6 - tp3 55) * (π / 299) / (tp3 56 - tp3 55) ≤
      (0.005880515721 * 0.010507 : ℝ) / 0.007320024654 :=
    div_le_div₀ (by norm_num) hFnum_hi (by norm_num) hD1.le
  have hxiA : (0.586321262121:ℝ) ≤
      X 55 + (π / 6 - tp3 55) * (π / 299) / (tp3 56 - tp3 55) := by
    have : (0.586321262121:ℝ) ≤
        0.577884816053 + 0.005879267128 * 0.010506996655 / 0.007322211219 := by
      norm_num
    linarith
  have hxiB : X 55 + (π / 6 - tp3 55) * (π / 299) / (tp3 56 - tp3 55) ≤
      0.586325761009 := by
    have : (0.577885:ℝ) + 0.005880515721 * 0.010507 / 0.007320024654 ≤
        0.586325761009 := by
      norm_num
    linarith
  have hsx := sin_mono_interval hxiA hxiB (by norm_num) (by norm_num)
  obtain ⟨sAl, _⟩ := sin_xiA_bound
  obtain ⟨_, sBh⟩ := sin_xiB_bound
  have hsxlo : (0.553300190742:ℝ) ≤
      Real.sin (X 55 + (π / 6 - tp3 55) * (π / 299) / (tp3 56 - tp3 55)) :=
    le_trans sAl hsx.1
  have hsxhi :
      Real.sin (X 55 + (π / 6 - tp3 55) * (π / 299) / (tp3 56 - tp3 55)) ≤
        0.553304459375 :=
    le_trans hsx.2 sBh
  -- the innermost Sphere factor and the circle angle
  rw [show (1:ℝ) - (2 * (1 / 5) - 1) ^ 2 = (4 / 5) ^ 2 by norm_num,
    Real.sqrt_sq (by norm_num : (0:ℝ) ≤ 4 / 5)]
  rw [show (1 / 7 : ℝ) * TWO_PI = 2 * π / 7 by rw [TWO_PI]; ring]
  obtain ⟨w1, w2⟩ := sin_two_pi_div_seven_bounds
  set sx := Real.sin (X 55 + (π / 6 - tp3 55) * (π / 299) / (tp3 56 - tp3 55))
    with hsxdef
  set w := Real.sin (2 * π / 7) with hwdef
  have m2 : (0.553300190742 : ℝ) * ((4 / 5) * 0.781830288683) ≤
      sx * ((4 / 5) * w) := by
    apply mul_le_mul hsxlo (by linarith) (by norm_num) (by linarith)
  have m3 : sx * ((4 / 5) * w) ≤
      (0.553304459375 : ℝ) * ((4 / 5) * 0.781832610137) := by
    apply mul_le_mul hsxhi (by linarith) (by positivity) (by norm_num)
  rw [abs_lt]
  constructor
  · linarith
  · linarith


end lds2
